import Mathlib

/-!
Verification of the pyiron_base job lifecycle engine.

This file gives a shallow embedding of the job-lifecycle orchestration code
of `pyiron_base/objects/job/generic.py` and `pyiron_base/project.py`:

* the shared job table (the persisted record store) is a list of records;
* the in-memory job object is a small state structure carrying its view of
  the table;
* external collaborators (the refresh handler of a master job, the external
  queue, the workload subprocess, the filesystem) are parameters of the
  embedded functions;
* raising an exception is modelled by returning the error alongside the
  state mutations that already happened (Python mutations survive a raise).

Statuses are the plain strings stored in the job table, exactly as the
Python code compares them.
-/

/-- One persisted job record of the shared job table: id, status string,
optional parent id (chain relation) and optional master id (aggregation
relation). -/
structure DbRec where
  id : Nat
  status : String
  parentid : Option Nat
  masterid : Option Nat
deriving Repr, DecidableEq

/-- The shared job table (the relational record store). -/
abbrev DB := List DbRec

/-- Embedding of `db.get_item_by_id(i)["status"]`: the status string of the
first record with the given id, `none` when no record exists (Python would
raise there; theorems carry the existence hypothesis explicitly). -/
def getStatus (db : DB) (i : Nat) : Option String :=
  (db.find? (fun r => r.id == i)).map (fun r => r.status)

/-- Embedding of `db.item_update({"status": s}, i)`: overwrite the status
field of the record(s) with the given id. -/
def setDbStatus (db : DB) (i : Nat) (s : String) : DB :=
  db.map (fun r => if r.id = i then { r with status := s } else r)

theorem getStatus_cons (r : DbRec) (rest : DB) (j : Nat) :
    getStatus (r :: rest) j = if r.id = j then some r.status else getStatus rest j := by
  by_cases h : r.id = j
  · simp [getStatus, List.find?_cons, h]
  · simp [getStatus, List.find?_cons, h]

theorem getStatus_setDbStatus_ne (db : DB) (i j : Nat) (s : String) (h : j ≠ i) :
    getStatus (setDbStatus db i s) j = getStatus db j := by
  induction db with
  | nil => rfl
  | cons r rest ih =>
    show getStatus ((if r.id = i then { r with status := s } else r) :: setDbStatus rest i s) j
      = getStatus (r :: rest) j
    by_cases hi : r.id = i
    · rw [if_pos hi, getStatus_cons, getStatus_cons]
      have hnj : ¬ r.id = j := by
        rw [hi]; exact fun hh => h hh.symm
      rw [if_neg hnj, if_neg hnj, ih]
    · rw [if_neg hi, getStatus_cons, getStatus_cons]
      by_cases hj : r.id = j
      · rw [if_pos hj, if_pos hj]
      · rw [if_neg hj, if_neg hj, ih]

theorem getStatus_setDbStatus_self (db : DB) (i : Nat) (s : String)
    (h : (getStatus db i).isSome) :
    getStatus (setDbStatus db i s) i = some s := by
  induction db with
  | nil => simp [getStatus] at h
  | cons r rest ih =>
    show getStatus ((if r.id = i then { r with status := s } else r) :: setDbStatus rest i s) i
      = some s
    by_cases hi : r.id = i
    · rw [if_pos hi, getStatus_cons, if_pos hi]
    · rw [if_neg hi, getStatus_cons, if_neg hi]
      rw [getStatus_cons, if_neg hi] at h
      exact ih h

/-- Embedding of `GenericJob.update_master` (generic.py:652).

Parameters: `fuel` bounds the recursion depth of the wake protocol (the
Python recursion has no explicit bound; `none` marks exhausted fuel or a
missing master record, where Python would not return normally);
`handler m db` is the effect on the job table of loading the master job `m`
and invoking its `_run_if_refresh` handler — an extension point not
implemented by the base class.  The `communicate()` wait for a thread-mode
process has no effect on the table and is not modelled. -/
def update_master (fuel : Nat) (handler : Nat → DB → DB)
    (masterId : Option Nat) (db : DB) : Option DB :=
  match fuel with
  | 0 => none
  | fuel + 1 =>
    match masterId with
    | none => some db
    | some m =>
      match getStatus db m with
      | none => none
      | some s =>
        if s = "suspended" then
          match getStatus (handler m (setDbStatus db m "refresh")) m with
          | none => none
          | some s2 =>
            if s2 = "busy" then
              update_master fuel handler (some m)
                (setDbStatus (handler m (setDbStatus db m "refresh")) m "suspended")
            else
              some (handler m (setDbStatus db m "refresh"))
        else if s = "refresh" then
          some (setDbStatus db m "busy")
        else
          some db

/-- Claim C1: tri-state master wake protocol of `update_master`.  With a
`None` master id the table is untouched; a master persisted as anything
other than `suspended` or `refresh` is untouched; a master persisted as
`refresh` is set to `busy` and nothing else happens; a master persisted as
`suspended` is set to `refresh`, its refresh handler is invoked, and if the
persisted status afterwards is `busy` it is set back to `suspended` and the
same protocol is re-invoked recursively, otherwise the protocol stops. -/
theorem update_master_tri_state (fuel : Nat) (handler : Nat → DB → DB) (db : DB) :
    (update_master (fuel + 1) handler none db = some db)
    ∧ (∀ m s, getStatus db m = some s → s ≠ "suspended" → s ≠ "refresh" →
        update_master (fuel + 1) handler (some m) db = some db)
    ∧ (∀ m, getStatus db m = some "refresh" →
        update_master (fuel + 1) handler (some m) db = some (setDbStatus db m "busy"))
    ∧ (∀ m, getStatus db m = some "suspended" →
        (getStatus (handler m (setDbStatus db m "refresh")) m = some "busy" →
          update_master (fuel + 1) handler (some m) db
            = update_master fuel handler (some m)
                (setDbStatus (handler m (setDbStatus db m "refresh")) m "suspended"))
        ∧ (∀ s2, getStatus (handler m (setDbStatus db m "refresh")) m = some s2 →
            s2 ≠ "busy" →
            update_master (fuel + 1) handler (some m) db
              = some (handler m (setDbStatus db m "refresh")))) := by
  refine ⟨rfl, ?_, ?_, ?_⟩
  · intro m s hs hns hnr
    simp [update_master, hs, hns, hnr]
  · intro m hs
    simp [update_master, hs]
  · intro m hs
    constructor
    · intro hbusy
      simp [update_master, hs, hbusy]
    · intro s2 hs2 hns2
      simp [update_master, hs, hs2, hns2]

/-- Witness for C1: a master persisted as `refresh` is flipped to `busy`,
at a concrete one-record table with an identity refresh handler. -/
theorem update_master_tri_state_w :
    update_master 1 (fun _ d => d) (some 1) [⟨1, "refresh", none, none⟩]
      = some [⟨1, "busy", none, none⟩] := by
  have h := (update_master_tri_state 0 (fun _ d => d)
      [⟨1, "refresh", none, none⟩]).2.2.1 1 (by decide)
  simpa using h

/-- The in-memory job object: the job id (unassigned until first
persisted), the in-memory status string (`self.status.string`), the
master/parent references and the job's view of the shared job table. -/
structure JobState where
  job_id : Option Nat
  status : String
  master_id : Option Nat
  parent_id : Option Nat
  db : DB
deriving Repr, DecidableEq

/-- The kinds of abnormal termination `run` catches: any ordinary
exception, a keyboard interrupt, or a system exit — the three `except`
clauses of `GenericJob.run` (generic.py:529-537), all handled alike. -/
inductive PyErr where
  | exception (msg : String)
  | keyboardInterrupt
  | systemExit
deriving Repr, DecidableEq

/-- Result of a handler or of `run`: the state after all mutations that
happened, plus the exception propagating out of it, if any (a Python
`raise` does not undo earlier mutations). -/
abbrev RunResult := JobState × Option PyErr

/-- Modelled from the spec: the `JobStatus` setter (the class
`pyiron_base.objects.job.jobstatus.JobStatus` is not among the sources) —
per §3 the status is "persisted in the shared store, not only in memory",
so setting the in-memory status also overwrites the persisted record when
a job id is assigned. -/
def setStatus (st : JobState) (s : String) : JobState :=
  match st.job_id with
  | none => { st with status := s }
  | some i => { st with status := s, db := setDbStatus st.db i s }

/-- Embedding of `GenericJob.refresh_job_status` (generic.py:372): if a job
id is assigned, replace the in-memory status with the persisted one.  A
missing record (where `get_item_by_id` would raise) leaves the state
unchanged here; theorems carry the existence hypothesis explicitly. -/
def refresh_job_status (st : JobState) : JobState :=
  match st.job_id with
  | none => st
  | some i =>
    match getStatus st.db i with
    | none => st
    | some s => { st with status := s }

/-- Embedding of `GenericJob.drop_status_to_aborted` (generic.py:154):
refresh the status from the persisted record, then force `aborted` unless
the refreshed status is `finished` or `suspended`. -/
def drop_status_to_aborted (st : JobState) : JobState :=
  let st1 := refresh_job_status st
  if st1.status = "finished" ∨ st1.status = "suspended" then st1
  else setStatus st1 "aborted"

/-- Embedding of `GenericJob.signal_intercept` (generic.py:144), registered
for SIGINT/SIGTERM/SIGABRT at construction: it logs and calls
`drop_status_to_aborted` (its `try`/`except` only re-raises). -/
def signal_intercept (st : JobState) : JobState :=
  drop_status_to_aborted st

/-- Modelled from the spec: `JobCore.remove` (not among the sources) —
"remove all persisted artifacts and the record" (§4.1 step 1).  On the
record store this deletes the job's row; filesystem artifacts are outside
the table model. -/
def removeRecord (db : DB) (i : Nat) : DB :=
  db.filter (fun r => !(r.id == i))

/-- `self.remove()` as called from `run` (generic.py:503). -/
def remove (st : JobState) : JobState :=
  match st.job_id with
  | none => st
  | some i => { st with db := removeRecord st.db i }

/-- Embedding of `GenericJob.reset_job_id` (generic.py:475): clears the job
id and installs a fresh `JobStatus`.  Modelled from the spec: a fresh
`JobStatus` with no job id starts as `initialized` ("created in memory as
initialized", §3) — jobstatus.py is not among the sources. -/
def reset_job_id (st : JobState) : JobState :=
  { st with job_id := none, status := "initialized" }

/-- The per-status handlers `run` dispatches to (generic.py:839-959).
Their bodies involve external collaborators (HDF5 store, filesystem,
subclass hooks), so the dispatcher is verified parametrically in them. -/
structure Handlers where
  run_if_new : JobState → RunResult
  run_if_created : JobState → RunResult
  run_if_submitted : JobState → RunResult
  run_if_running : JobState → RunResult
  run_if_collect : JobState → RunResult
  run_if_suspended : JobState → RunResult
  run_if_refresh : JobState → RunResult
  run_if_busy : JobState → RunResult
  run_if_finished : Bool → JobState → RunResult

/-- Embedding of the `try` block of `GenericJob.run` (generic.py:494-528):
snapshot the status string; on `run_again` with an assigned id remove the
job, clear the id and re-dispatch as `initialized` keeping master and
parent ids; on `repair` with an assigned id and a non-finished job
re-dispatch as `created`; then dispatch on the status string.  Note the
dispatch compares the snapshot against the literal `"suspend"`
(generic.py:521).  A status string matching no branch falls through with
no handler invoked.  (`validate_ready_to_run` is a no-op in the base
class; the `run_mode` override only touches the server object.) -/
def runTry (h : Handlers) (run_again repair : Bool) (st : JobState) : RunResult :=
  let pair : String × JobState :=
    if run_again && st.job_id.isSome then
      let master_id := st.master_id
      let parent_id := st.parent_id
      let st1 := reset_job_id (remove st)
      ("initialized", { st1 with master_id := master_id, parent_id := parent_id })
    else (st.status, st)
  let st1 := pair.2
  let status := if repair && st1.job_id.isSome && !(st1.status == "finished")
    then "created" else pair.1
  if status = "initialized" then h.run_if_new st1
  else if status = "created" then h.run_if_created st1
  else if status = "submitted" then h.run_if_submitted st1
  else if status = "running" then h.run_if_running st1
  else if status = "collect" then h.run_if_collect st1
  else if status = "suspend" then h.run_if_suspended st1
  else if status = "refresh" then h.run_if_refresh st1
  else if status = "busy" then h.run_if_busy st1
  else if status = "finished" then h.run_if_finished run_again st1
  else (st1, none)

/-- Embedding of `GenericJob.run` (generic.py:482-537): the `try` block,
with every caught termination (exception, keyboard interrupt, system exit)
routed through `drop_status_to_aborted` before propagating. -/
def run (h : Handlers) (run_again repair : Bool) (st : JobState) : RunResult :=
  match runTry h run_again repair st with
  | (st1, none) => (st1, none)
  | (st1, some e) => (drop_status_to_aborted st1, some e)

/-- Handlers that leave the state untouched and raise nothing; used to
instantiate dispatcher theorems at concrete inputs. -/
def idHandlers : Handlers where
  run_if_new := fun st => (st, none)
  run_if_created := fun st => (st, none)
  run_if_submitted := fun st => (st, none)
  run_if_running := fun st => (st, none)
  run_if_collect := fun st => (st, none)
  run_if_suspended := fun st => (st, none)
  run_if_refresh := fun st => (st, none)
  run_if_busy := fun st => (st, none)
  run_if_finished := fun _ st => (st, none)

/-- Claim C8: from status `aborted`, `run()` without `run_again`/`repair`
matches no dispatch branch, so whatever the handlers are, no handler runs,
the state (in-memory status, record store, ids) is returned unchanged, and
a repeated call is again a no-op. -/
theorem run_aborted_noop (h : Handlers) (st : JobState) (hs : st.status = "aborted") :
    run h false false st = (st, none)
    ∧ run h false false (run h false false st).1 = (st, none) := by
  have h1 : run h false false st = (st, none) := by
    simp [run, runTry, hs]
  exact ⟨h1, by rw [h1]; exact h1⟩

/-- Witness for C8 at a concrete aborted job with one persisted record. -/
theorem run_aborted_noop_w :
    run idHandlers false false
        ⟨some 1, "aborted", none, none, [⟨1, "aborted", none, none⟩]⟩
      = (⟨some 1, "aborted", none, none, [⟨1, "aborted", none, none⟩]⟩, none) :=
  (run_aborted_noop idHandlers
    ⟨some 1, "aborted", none, none, [⟨1, "aborted", none, none⟩]⟩ (by decide)).1

/-- Claim C2 (code bug): the dispatcher compares the status string against
the literal `"suspend"`, but a suspended job's status string is
`"suspended"` (the status set by `suspend()`/`status.suspended = True` and
stored in the record, and the one `run`'s own docstring lists), so a
suspended job matches no branch: `run()` with default arguments invokes no
handler — in particular not `_run_if_suspended` — and returns with the
status still `suspended` instead of `refresh`. -/
theorem run_suspended_falls_through (h : Handlers) (st : JobState)
    (hs : st.status = "suspended") :
    run h false false st = (st, none)
    ∧ runTry h false false { st with status := "suspend" } = h.run_if_suspended
        { st with status := "suspend" } := by
  constructor
  · simp [run, runTry, hs]
  · simp [runTry]

/-- Witness for C2: a concrete suspended job is returned unchanged by
`run()` — its status stays `suspended`, it does not become `refresh`. -/
theorem run_suspended_falls_through_w :
    run idHandlers false false
        ⟨some 1, "suspended", none, none, [⟨1, "suspended", none, none⟩]⟩
      = (⟨some 1, "suspended", none, none, [⟨1, "suspended", none, none⟩]⟩, none) :=
  (run_suspended_falls_through idHandlers
    ⟨some 1, "suspended", none, none, [⟨1, "suspended", none, none⟩]⟩ (by decide)).1

/-- Claim C3: whenever the dispatch inside `run` terminates abnormally
(exception, keyboard interrupt or system exit), `run` routes the state
through `drop_status_to_aborted` and propagates the same error; that
function refreshes the status from the persisted record and leaves record
and status alone when the refreshed status is `finished` or `suspended`,
and otherwise forces both the in-memory status and the persisted record to
`aborted`.  The registered signal handler for SIGINT/SIGTERM/SIGABRT is
the same `drop_status_to_aborted` step. -/
theorem run_error_drops_to_aborted (h : Handlers) (ra rp : Bool) (st st1 : JobState)
    (e : PyErr) (i : Nat) (s : String)
    (hrun : runTry h ra rp st = (st1, some e))
    (hid : st1.job_id = some i) (hrec : getStatus st1.db i = some s) :
    run h ra rp st = (drop_status_to_aborted st1, some e)
    ∧ (s = "finished" ∨ s = "suspended" →
        drop_status_to_aborted st1 = { st1 with status := s })
    ∧ (s ≠ "finished" → s ≠ "suspended" →
        (drop_status_to_aborted st1).status = "aborted"
          ∧ getStatus (drop_status_to_aborted st1).db i = some "aborted")
    ∧ signal_intercept st1 = drop_status_to_aborted st1 := by
  have href : refresh_job_status st1 = { st1 with status := s } := by
    simp [refresh_job_status, hid, hrec]
  refine ⟨?_, ?_, ?_, rfl⟩
  · simp [run, hrun]
  · intro hfs
    rcases hfs with h1 | h1 <;> simp [drop_status_to_aborted, href, h1]
  · intro hf hsus
    have habort : drop_status_to_aborted st1
        = setStatus { st1 with status := s } "aborted" := by
      simp [drop_status_to_aborted, href, hf, hsus]
    have hset : setStatus { st1 with status := s } "aborted"
        = { st1 with status := "aborted", db := setDbStatus st1.db i "aborted" } := by
      simp [setStatus, hid]
    rw [habort, hset]
    exact ⟨rfl, getStatus_setDbStatus_self st1.db i "aborted" (by simp [hrec])⟩

/-- Handlers whose `initialized` handler raises an ordinary exception,
leaving the state untouched; the other handlers are the identity. -/
def errHandlers : Handlers :=
  { idHandlers with run_if_new := fun st => (st, some (PyErr.exception "boom")) }

/-- Witness for C3: a concrete job whose dispatch raises while the
persisted record says `running` ends with status and record `aborted`, and
the error propagates. -/
theorem run_error_drops_to_aborted_w :
    run errHandlers false false
        ⟨some 1, "initialized", none, none, [⟨1, "running", none, none⟩]⟩
      = (⟨some 1, "aborted", none, none, [⟨1, "aborted", none, none⟩]⟩,
          some (PyErr.exception "boom")) := by
  have h := run_error_drops_to_aborted errHandlers false false
      ⟨some 1, "initialized", none, none, [⟨1, "running", none, none⟩]⟩
      ⟨some 1, "initialized", none, none, [⟨1, "running", none, none⟩]⟩
      (PyErr.exception "boom") 1 "running" (by decide) (by decide) (by decide)
  rw [h.1]
  decide

theorem getStatus_removeRecord_self (db : DB) (i : Nat) :
    getStatus (removeRecord db i) i = none := by
  induction db with
  | nil => rfl
  | cons r rest ih =>
    by_cases hi : r.id = i
    · have hrm : removeRecord (r :: rest) i = removeRecord rest i := by
        simp [removeRecord, List.filter_cons, hi]
      rw [hrm, ih]
    · have hrm : removeRecord (r :: rest) i = r :: removeRecord rest i := by
        simp [removeRecord, List.filter_cons, hi]
      rw [hrm, getStatus_cons, if_neg hi, ih]

/-- Claim C4: for a job with an assigned id, `run(run_again=True)` deletes
the persisted record, clears the id, re-dispatches as `initialized`, and
hands the `initialized` handler a state whose master and parent ids are
exactly the ones from before the call; when that handler returns normally
its result is the result of `run`. -/
theorem run_again_resets (h : Handlers) (rp : Bool) (st : JobState) (i : Nat)
    (hid : st.job_id = some i) :
    runTry h true rp st
      = h.run_if_new ⟨none, "initialized", st.master_id, st.parent_id, removeRecord st.db i⟩
    ∧ getStatus (removeRecord st.db i) i = none
    ∧ (∀ st2, h.run_if_new ⟨none, "initialized", st.master_id, st.parent_id,
          removeRecord st.db i⟩ = (st2, none) →
        run h true rp st = (st2, none)) := by
  have hreset : runTry h true rp st
      = h.run_if_new ⟨none, "initialized", st.master_id, st.parent_id,
          removeRecord st.db i⟩ := by
    simp [runTry, hid, remove, reset_job_id]
  refine ⟨hreset, getStatus_removeRecord_self st.db i, ?_⟩
  intro st2 h2
  simp [run, hreset, h2]

/-- Witness for C4: a concrete finished job with master id 3 and parent id
4 is reset — record gone, id cleared, status `initialized`, master and
parent ids untouched. -/
theorem run_again_resets_w :
    run idHandlers true false
        ⟨some 7, "finished", some 3, some 4, [⟨7, "finished", some 4, some 3⟩]⟩
      = (⟨none, "initialized", some 3, some 4, []⟩, none) := by
  have h := run_again_resets idHandlers false
      ⟨some 7, "finished", some 3, some 4, [⟨7, "finished", some 4, some 3⟩]⟩ 7 (by decide)
  exact h.2.2 ⟨none, "initialized", some 3, some 4, []⟩ (by decide)

/-- Files of the working directory, as a list of name/content pairs. -/
abbrev Files := List (String × String)

/-- Embedding of `GenericJob.run_if_modal` (generic.py:539): the modal
(synchronous, in-process) execution strategy.  `workload` is the external
`subprocess.check_output` invocation: `Except.ok out` is a zero exit with
captured output, `Except.error out` a `CalledProcessError` carrying the
captured output.  `reenter` is the `self.run()` dispatcher re-entry done
on success.  The `timestart` record update and the `close_connection`
branch do not touch the modelled state. -/
def run_if_modal (workload : Except String String) (reenter : JobState → RunResult)
    (st : JobState) (files : Files) : JobState × Files × Option PyErr :=
  let st1 := setStatus st "running"
  match workload with
  | Except.error out =>
    (setStatus st1 "aborted", files ++ [("error.msg", out)],
      some (PyErr.exception "Job aborted"))
  | Except.ok _ =>
    let r := reenter (setStatus st1 "collect")
    (r.1, files, r.2)

theorem setStatus_status (st : JobState) (s : String) : (setStatus st s).status = s := by
  cases st with
  | mk jid stat mid pid db => cases jid <;> rfl

/-- Claim C5: in modal mode a workload exiting non-zero writes the captured
output into an `error.msg` file in the working directory, sets the status
to `aborted` and raises a runtime failure; a workload exiting zero sets the
status to `collect` and re-enters the dispatcher — which on a `collect`
status selects the collect handler (the path to `finished`) — and writes
no `error.msg` file. -/
theorem run_if_modal_outcomes (st : JobState) (files : Files) (out : String)
    (reenter : JobState → RunResult) (h : Handlers) :
    (run_if_modal (Except.error out) reenter st files
      = (setStatus (setStatus st "running") "aborted",
          files ++ [("error.msg", out)], some (PyErr.exception "Job aborted")))
    ∧ (setStatus (setStatus st "running") "aborted").status = "aborted"
    ∧ (run_if_modal (Except.ok out) reenter st files
      = ((reenter (setStatus (setStatus st "running") "collect")).1, files,
          (reenter (setStatus (setStatus st "running") "collect")).2))
    ∧ (setStatus (setStatus st "running") "collect").status = "collect"
    ∧ (∀ stc : JobState, stc.status = "collect" →
        runTry h false false stc = h.run_if_collect stc) := by
  refine ⟨rfl, setStatus_status _ _, rfl, setStatus_status _ _, ?_⟩
  intro stc hc
  simp [runTry, hc]

/-- Witness for C5: a concrete failing modal run ends `aborted` with the
output in `error.msg`; the dispatcher on a concrete `collect` job selects
the collect handler. -/
theorem run_if_modal_outcomes_w :
    run_if_modal (Except.error "err output") (fun stx => (stx, none))
        ⟨some 2, "submitted", none, none, [⟨2, "submitted", none, none⟩]⟩ []
      = (⟨some 2, "aborted", none, none, [⟨2, "aborted", none, none⟩]⟩,
          [("error.msg", "err output")], some (PyErr.exception "Job aborted"))
    ∧ runTry idHandlers false false ⟨some 2, "collect", none, none, []⟩
      = idHandlers.run_if_collect ⟨some 2, "collect", none, none, []⟩ := by
  have h := run_if_modal_outcomes
    ⟨some 2, "submitted", none, none, [⟨2, "submitted", none, none⟩]⟩ [] "err output"
    (fun stx => (stx, none)) idHandlers
  exact ⟨by rw [h.1]; decide, h.2.2.2.2 ⟨some 2, "collect", none, none, []⟩ (by decide)⟩

/-- The loop body of `Project.refresh_job_status_based_on_job_id`
(project.py:668-670): for every queue listing whose state is not `r`
(actively running), overwrite the persisted status with `aborted`. -/
def reconcileLoop (jid : Nat) : List (Nat × String) → DB → DB
  | [], db => db
  | e :: rest, db =>
    reconcileLoop jid rest (if e.2 ≠ "r" then setDbStatus db jid "aborted" else db)

/-- Embedding of `Project.refresh_job_status_based_on_job_id`
(project.py:651): `queue_status` is the result of `queue_id_table(job_id)`
as a list of (queue id, queue state) listings, `none` when the query
raised (the `try`/`except` turns that into no listing).  A falsy result
(`none` or the empty listing) forces `aborted`; a non-empty listing runs
the per-listing loop.  The outer `if job_id:` guard is the `none` branch;
a missing record (where `get_item_by_id` would raise) yields `none`. -/
def refresh_job_status_based_on_job_id (queue_status : Option (List (Nat × String)))
    (job_id : Option Nat) (que_mode : Bool) (db : DB) : Option DB :=
  match job_id with
  | none => some db
  | some jid =>
    match getStatus db jid with
    | none => none
    | some s =>
      if (¬ que_mode ∧ s ≠ "finished")
          ∨ (que_mode ∧ (s = "running" ∨ s = "submitted")) then
        match queue_status with
        | none => some (setDbStatus db jid "aborted")
        | some [] => some (setDbStatus db jid "aborted")
        | some entries => some (reconcileLoop jid entries db)
      else
        some db

theorem setDbStatus_idem (db : DB) (i : Nat) (s : String) :
    setDbStatus (setDbStatus db i s) i s = setDbStatus db i s := by
  unfold setDbStatus
  rw [List.map_map]
  apply List.map_congr_left
  intro r _
  by_cases hi : r.id = i
  · simp [Function.comp, hi]
  · simp [Function.comp, hi]

theorem reconcileLoop_all_stale (jid : Nat) (entries : List (Nat × String)) (db : DB)
    (hne : entries ≠ []) (hall : ∀ e ∈ entries, e.2 ≠ "r") :
    reconcileLoop jid entries db = setDbStatus db jid "aborted" := by
  induction entries generalizing db with
  | nil => cases hne rfl
  | cons e rest ih =>
    have he : e.2 ≠ "r" := hall e (List.mem_cons_self e rest)
    show reconcileLoop jid rest (if e.2 ≠ "r" then setDbStatus db jid "aborted" else db)
      = setDbStatus db jid "aborted"
    rw [if_pos he]
    rcases rest with _ | ⟨e2, rest2⟩
    · rfl
    · rw [ih _ (by simp) (fun x hx => hall x (List.mem_cons_of_mem e hx)), setDbStatus_idem]

/-- Claim C7: queue reconciliation.  For a job persisted as `running` or
`submitted` (in queue mode): a failed queue query, an empty listing, or a
non-empty listing none of whose entries is actively running all force the
persisted status to `aborted`; any other persisted status is left
unchanged; and with the record present the reconciliation always returns
normally (a failing queue query is treated as no listing, not an error). -/
theorem reconcile_stale_queue (db : DB) (jid : Nat) (s : String)
    (qs : Option (List (Nat × String)))
    (hrec : getStatus db jid = some s) :
    ((s = "running" ∨ s = "submitted") →
      ((qs = none ∨ qs = some [] →
          refresh_job_status_based_on_job_id qs (some jid) true db
            = some (setDbStatus db jid "aborted"))
        ∧ (∀ l, qs = some l → l ≠ [] → (∀ e ∈ l, e.2 ≠ "r") →
            refresh_job_status_based_on_job_id qs (some jid) true db
              = some (setDbStatus db jid "aborted"))))
    ∧ (s ≠ "running" → s ≠ "submitted" →
        refresh_job_status_based_on_job_id qs (some jid) true db = some db)
    ∧ (refresh_job_status_based_on_job_id qs (some jid) true db).isSome := by
  refine ⟨?_, ?_, ?_⟩
  · intro hs
    constructor
    · intro hq
      rcases hq with h1 | h1 <;> subst h1 <;> rcases hs with h2 | h2 <;> subst h2 <;>
        simp [refresh_job_status_based_on_job_id, hrec]
    · intro l hl hlne hall
      subst hl
      rcases l with _ | ⟨e, rest⟩
      · cases hlne rfl
      · have hloop := reconcileLoop_all_stale jid (e :: rest) db (by simp) hall
        rcases hs with h2 | h2 <;> subst h2 <;>
          simp [refresh_job_status_based_on_job_id, hrec, hloop]
  · intro h1 h2
    simp [refresh_job_status_based_on_job_id, hrec, h1, h2]
  · simp only [refresh_job_status_based_on_job_id, hrec]
    split
    · rcases qs with _ | l
      · simp
      · rcases l with _ | ⟨e, rest⟩ <;> simp
    · simp

/-- Witness for C7: a concrete record persisted as `running` whose queue
query failed is forced to `aborted`, and the call returns normally. -/
theorem reconcile_stale_queue_w :
    refresh_job_status_based_on_job_id none (some 5) true [⟨5, "running", none, none⟩]
      = some [⟨5, "aborted", none, none⟩] := by
  have h := ((reconcile_stale_queue [⟨5, "running", none, none⟩] 5 "running" none
      (by decide)).1 (Or.inl rfl)).1 (Or.inl rfl)
  rw [h]; decide

/-- The observable side effects of the chain coordinator on other job
objects: triggering another job's `run()`, invoking the
`_before_successor_calc` extension hook, marking a child `created`. -/
inductive JobAction where
  | runTriggered (jid : Nat)
  | hookBeforeSuccessor (jid : Nat)
  | markedCreated (jid : Nat)
deriving Repr, DecidableEq

/-- Embedding of `GenericJob._calculate_predecessor` (generic.py:1046): if
a parent id is set and the parent's persisted status is `initialized` or
`created`, mark self `suspended` and trigger the parent's `run()` (the
load of the parent object has no effect on the table; its `run()` is
recorded as an action).  A missing parent record (where `get_item_by_id`
would raise) is not constrained by the theorems. -/
def calculate_predecessor (st : JobState) : JobState × List JobAction :=
  match st.parent_id with
  | none => (st, [])
  | some pid =>
    match getStatus st.db pid with
    | none => (st, [])
    | some s =>
      if s = "initialized" ∨ s = "created" then
        (setStatus st "suspended", [JobAction.runTriggered pid])
      else (st, [])

/-- The ids of the records whose `parentid` equals the given id — the
`get_items_dict({'parentid': str(self.job_id)})` query of
`_calculate_successor` (generic.py:1065). -/
def childIds (db : DB) (me : Nat) : List Nat :=
  (db.filter (fun r => r.parentid == some me)).map (fun r => r.id)

/-- The loop of `_calculate_successor` (generic.py:1065-1071): walk the
sorted child ids; each child currently persisted as `suspended` is marked
`created` (the child's status setter persists it), the pre-successor hook
runs, and the child's `run()` is triggered. -/
def successorLoop : DB → List Nat → DB × List JobAction
  | db, [] => (db, [])
  | db, c :: rest =>
    if getStatus db c = some "suspended" then
      let r := successorLoop (setDbStatus db c "created") rest
      (r.1, JobAction.markedCreated c :: JobAction.hookBeforeSuccessor c ::
        JobAction.runTriggered c :: r.2)
    else successorLoop db rest

/-- Embedding of `GenericJob._calculate_successor` (generic.py:1059):
sort the child ids ascending, then run the loop.  With no job id the query
key `str(None)` matches no record. -/
def calculate_successor (st : JobState) : JobState × List JobAction :=
  match st.job_id with
  | none => (st, [])
  | some me =>
    let r := successorLoop st.db (List.insertionSort (· ≤ ·) (childIds st.db me))
    ({ st with db := r.1 }, r.2)

/-- The children of `me` that the persisted table lists as `suspended`, in
ascending id order — the set the spec says the successor step services. -/
def suspKids (st : JobState) (me : Nat) : List Nat :=
  (List.insertionSort (· ≤ ·) (childIds st.db me)).filter
    (fun c => decide (getStatus st.db c = some "suspended"))

theorem successorLoop_char (ids : List Nat) (db : DB) (hnd : ids.Nodup) :
    successorLoop db ids
      = ((ids.filter (fun c => decide (getStatus db c = some "suspended"))).foldl
            (fun d c => setDbStatus d c "created") db,
          (ids.filter (fun c => decide (getStatus db c = some "suspended"))).flatMap
            (fun c => [JobAction.markedCreated c, JobAction.hookBeforeSuccessor c,
                JobAction.runTriggered c])) := by
  induction ids generalizing db with
  | nil => rfl
  | cons c rest ih =>
    have hnotin : c ∉ rest := (List.nodup_cons.mp hnd).1
    have hrest : rest.Nodup := (List.nodup_cons.mp hnd).2
    by_cases hc : getStatus db c = some "suspended"
    · have hfilter : ∀ x ∈ rest,
          (decide (getStatus (setDbStatus db c "created") x = some "suspended"))
            = (decide (getStatus db x = some "suspended")) := by
        intro x hx
        have hne : x ≠ c := fun hxc => hnotin (hxc ▸ hx)
        rw [getStatus_setDbStatus_ne db c x "created" hne]
      have step : successorLoop db (c :: rest)
          = ((successorLoop (setDbStatus db c "created") rest).1,
              JobAction.markedCreated c :: JobAction.hookBeforeSuccessor c ::
                JobAction.runTriggered c ::
                  (successorLoop (setDbStatus db c "created") rest).2) := by
        simp [successorLoop, hc]
      have hfc : List.filter
            (fun x => decide (getStatus (setDbStatus db c "created") x = some "suspended")) rest
          = List.filter (fun x => decide (getStatus db x = some "suspended")) rest :=
        List.filter_congr hfilter
      have hhead : List.filter (fun x => decide (getStatus db x = some "suspended")) (c :: rest)
          = c :: List.filter (fun x => decide (getStatus db x = some "suspended")) rest := by
        simp [List.filter_cons, hc]
      rw [step, ih _ hrest, hfc, hhead]
      simp
    · have step : successorLoop db (c :: rest) = successorLoop db rest := by
        simp [successorLoop, hc]
      have hhead : List.filter (fun x => decide (getStatus db x = some "suspended")) (c :: rest)
          = List.filter (fun x => decide (getStatus db x = some "suspended")) rest := by
        simp [List.filter_cons, hc]
      rw [step, ih _ hrest, hhead]

theorem getStatus_foldl_set_not_mem (l : List Nat) (db : DB) (c : Nat) (hc : c ∉ l) :
    getStatus (l.foldl (fun d x => setDbStatus d x "created") db) c = getStatus db c := by
  induction l generalizing db with
  | nil => rfl
  | cons x rest ih =>
    have hxc : c ≠ x := fun h => hc (h ▸ List.mem_cons_self x rest)
    have hcrest : c ∉ rest := fun h => hc (List.mem_cons_of_mem x h)
    simp only [List.foldl_cons]
    rw [ih _ hcrest, getStatus_setDbStatus_ne db x c "created" hxc]

theorem getStatus_foldl_set_mem (l : List Nat) (db : DB) (c : Nat) (hnd : l.Nodup)
    (hc : c ∈ l) (hex : (getStatus db c).isSome) :
    getStatus (l.foldl (fun d x => setDbStatus d x "created") db) c = some "created" := by
  induction l generalizing db with
  | nil => cases hc
  | cons x rest ih =>
    have hnotin : x ∉ rest := (List.nodup_cons.mp hnd).1
    have hrest : rest.Nodup := (List.nodup_cons.mp hnd).2
    simp only [List.foldl_cons]
    rcases List.mem_cons.mp hc with h1 | h1
    · subst h1
      rw [getStatus_foldl_set_not_mem rest _ c hnotin]
      exact getStatus_setDbStatus_self db c "created" hex
    · have hcx : c ≠ x := fun hh => hnotin (hh ▸ h1)
      apply ih _ hrest h1
      rw [getStatus_setDbStatus_ne db x c "created" hcx]
      exact hex

theorem childIds_sublist (db : DB) (me : Nat) :
    (childIds db me).Sublist (db.map (fun r => r.id)) := by
  unfold childIds
  exact List.Sublist.map (fun r => r.id) (List.filter_sublist db)

theorem suspKids_nodup (st : JobState) (me : Nat)
    (h : (st.db.map (fun r => r.id)).Nodup) : (suspKids st me).Nodup := by
  have h1 : (childIds st.db me).Nodup := List.Nodup.sublist (childIds_sublist st.db me) h
  have h2 : (List.insertionSort (· ≤ ·) (childIds st.db me)).Nodup :=
    ((List.perm_insertionSort (· ≤ ·) (childIds st.db me)).nodup_iff).mpr h1
  exact List.Nodup.filter _ h2

/-- Claim C6: chain coordination.  Predecessor: with a parent persisted as
`initialized` or `created` the job marks itself `suspended` and triggers
the parent's `run()`, otherwise (or with no parent) nothing happens.
Successor: with distinct record ids, the trace is exactly — for each child
persisted as `suspended`, in ascending id order — mark `created`, invoke
the pre-successor hook, trigger the child's `run()`; and each such child's
persisted status afterwards is `created`. -/
theorem chain_coordination (st : JobState) :
    (∀ p s, st.parent_id = some p → getStatus st.db p = some s →
        (s = "initialized" ∨ s = "created") →
        calculate_predecessor st = (setStatus st "suspended", [JobAction.runTriggered p]))
    ∧ (st.parent_id = none → calculate_predecessor st = (st, []))
    ∧ (∀ p s, st.parent_id = some p → getStatus st.db p = some s →
        s ≠ "initialized" → s ≠ "created" → calculate_predecessor st = (st, []))
    ∧ (∀ me, st.job_id = some me → (st.db.map (fun r => r.id)).Nodup →
        (calculate_successor st).2
          = (suspKids st me).flatMap (fun c => [JobAction.markedCreated c,
              JobAction.hookBeforeSuccessor c, JobAction.runTriggered c])
        ∧ (suspKids st me).Sorted (· ≤ ·)
        ∧ (∀ c ∈ suspKids st me,
            getStatus (calculate_successor st).1.db c = some "created")) := by
  refine ⟨?_, ?_, ?_, ?_⟩
  · intro p s hp hs hin
    simp [calculate_predecessor, hp, hs, hin]
  · intro hp
    simp [calculate_predecessor, hp]
  · intro p s hp hs h1 h2
    simp [calculate_predecessor, hp, hs, h1, h2]
  · intro me hme hnd
    have hsortnd : (List.insertionSort (· ≤ ·) (childIds st.db me)).Nodup :=
      ((List.perm_insertionSort (· ≤ ·) (childIds st.db me)).nodup_iff).mpr
        (List.Nodup.sublist (childIds_sublist st.db me) hnd)
    have hchar := successorLoop_char (List.insertionSort (· ≤ ·) (childIds st.db me))
      st.db hsortnd
    have hsk : List.filter (fun c => decide (getStatus st.db c = some "suspended"))
        (List.insertionSort (· ≤ ·) (childIds st.db me)) = suspKids st me := rfl
    have hcs : calculate_successor st
        = ({ st with db := List.foldl (fun d c => setDbStatus d c "created") st.db (suspKids st me) },
            (suspKids st me).flatMap (fun c => [JobAction.markedCreated c,
              JobAction.hookBeforeSuccessor c, JobAction.runTriggered c])) := by
      simp only [calculate_successor, hme]
      rw [hchar, hsk]
    refine ⟨by rw [hcs], ?_, ?_⟩
    · exact List.Pairwise.filter _ (List.sorted_insertionSort (· ≤ ·) (childIds st.db me))
    · intro c hcmem
      rw [hcs]
      have hsusp : getStatus st.db c = some "suspended" := by
        have := (List.mem_filter.mp hcmem).2
        simpa using this
      exact getStatus_foldl_set_mem (suspKids st me) st.db c
        (suspKids_nodup st me hnd) hcmem (by simp [hsusp])

/-- Concrete scene for the C6 witness: job 10 at `collect` with suspended
children 12 and 11 and a finished child 13. -/
def chainSt : JobState :=
  ⟨some 10, "collect", none, none,
    [⟨10, "collect", none, none⟩, ⟨12, "suspended", some 10, none⟩,
      ⟨11, "suspended", some 10, none⟩, ⟨13, "finished", some 10, none⟩]⟩

/-- Witness for C6: the successor step services exactly the suspended
children 11 and 12, in ascending order, marking each `created` before its
hook and `run()`. -/
theorem chain_coordination_w :
    (calculate_successor chainSt).2
      = [JobAction.markedCreated 11, JobAction.hookBeforeSuccessor 11,
          JobAction.runTriggered 11, JobAction.markedCreated 12,
          JobAction.hookBeforeSuccessor 12, JobAction.runTriggered 12] := by
  have h := ((chain_coordination chainSt).2.2.2 10 (by decide) (by decide)).1
  rw [h]; decide

/-- Embedding of the `restart_file_list` setter (generic.py:292-305):
`isFile` is the filesystem check `os.path.isfile`, `cur` the current
`self._restart_file_list`, and the assigned `filenames` are walked in
order — every entry passing the check is appended; the first entry failing
it raises a missing-file IOError carrying that filename, and the loop
stops there.  The result is the list after the call together with the
raised error, if any (the appends done before the raise persist). -/
def restart_file_list_setter (isFile : String → Bool) :
    List String → List String → List String × Option String
  | cur, [] => (cur, none)
  | cur, f :: rest =>
    if isFile f then restart_file_list_setter isFile (cur ++ [f]) rest
    else (cur, some f)

theorem restart_setter_eq (isFile : String → Bool) (cur fns : List String) :
    restart_file_list_setter isFile cur fns
      = (cur ++ fns.takeWhile isFile, (fns.dropWhile isFile).head?) := by
  induction fns generalizing cur with
  | nil => simp [restart_file_list_setter]
  | cons f rest ih =>
    by_cases hf : isFile f
    · show (if isFile f then restart_file_list_setter isFile (cur ++ [f]) rest
          else (cur, some f)) = _
      rw [if_pos hf, ih, List.takeWhile_cons, List.dropWhile_cons, if_pos hf, if_pos hf]
      simp
    · show (if isFile f then restart_file_list_setter isFile (cur ++ [f]) rest
          else (cur, some f)) = _
      rw [if_neg hf, List.takeWhile_cons, List.dropWhile_cons, if_neg hf, if_neg hf]
      simp

theorem dropWhile_head_isSome (p : String → Bool) (l : List String) :
    (l.dropWhile p).head?.isSome ↔ ∃ x ∈ l, p x = false := by
  induction l with
  | nil => simp
  | cons a l ih =>
    by_cases ha : p a
    · simp [List.dropWhile_cons, ha, ih]
    · simp [List.dropWhile_cons, ha]

/-- Counterexample to claim C9 as stated: assigning `["b", "a"]` where only
`"a"` exists raises the missing-file error for `"b"`, yet the existing
entry `"a"` is never appended — the setter does not append every entry
that exists, because the error interrupts the walk. -/
theorem restart_setter_cex :
    ((fun f => f == "a") "a" = true)
    ∧ ("a" ∈ ["b", "a"])
    ∧ ((restart_file_list_setter (fun f => f == "a") [] ["b", "a"]).2 = some "b")
    ∧ ("a" ∉ (restart_file_list_setter (fun f => f == "a") [] ["b", "a"]).1) := by
  decide

/-- Claim C9 (amended): assigning a list of filenames raises the
missing-file IOError exactly when some entry does not pass the existence
check at that moment, and appends precisely the longest prefix of entries
that pass the check (every existing entry before the first missing one;
all of them when none is missing); the raised error names the first
missing entry. -/
theorem restart_setter_spec (isFile : String → Bool) (cur fns : List String) :
    restart_file_list_setter isFile cur fns
      = (cur ++ fns.takeWhile isFile, (fns.dropWhile isFile).head?)
    ∧ ((restart_file_list_setter isFile cur fns).2.isSome
        ↔ ∃ f ∈ fns, isFile f = false) := by
  refine ⟨restart_setter_eq isFile cur fns, ?_⟩
  rw [restart_setter_eq]
  exact dropWhile_head_isSome isFile fns

/-- Claim C10: when the assigned list contains a missing file, the call
raises, and the resulting `restart_file_list` is the old list extended by
exactly the existing entries that precede the first missing one — the
state is changed even though the assignment fails. -/
theorem restart_setter_partial_on_error (isFile : String → Bool) (cur fns : List String)
    (hmiss : ∃ f ∈ fns, isFile f = false) :
    (restart_file_list_setter isFile cur fns).2.isSome
    ∧ (restart_file_list_setter isFile cur fns).1 = cur ++ fns.takeWhile isFile := by
  constructor
  · rw [restart_setter_eq]
    exact (dropWhile_head_isSome isFile fns).mpr hmiss
  · rw [restart_setter_eq]

/-- Witness for C10: assigning `["a", "b", "c"]` where only `"a"` exists
raises, and the list afterwards holds exactly the appended `"a"`. -/
theorem restart_setter_partial_on_error_w :
    (restart_file_list_setter (fun f => f == "a") [] ["a", "b", "c"]).2.isSome
    ∧ (restart_file_list_setter (fun f => f == "a") [] ["a", "b", "c"]).1 = ["a"] := by
  have h := restart_setter_partial_on_error (fun f => f == "a") [] ["a", "b", "c"]
    ⟨"b", by decide, by decide⟩
  exact ⟨h.1, by rw [h.2]; decide⟩
